import Mathlib

/-!
Verification of the extraction engine of `src/cf_mainsite/crossfitscraper.py`
(`CrossFitWODScraper._extract_workout_content`, lines 113-334).

The page is modelled after the comment-removal step (source lines 127-137):
a `Soup` holds the stripped-markup data the method actually consumes —
the text of each `<strong>`/`<b>` tag, the text of each `<h1>`/`<h2>`/`<h3>`
tag (both in document order), and the flattened full-page text
(`soup.get_text()`).  Python's string methods (`in`, `strip`, `lower`,
`split('\n')`, `startswith`, `join`) are modelled by structural recursions
over the character list of the string, so that every definition evaluates
by kernel reduction; character classes (`\d`, `\s`, `[a-zA-Z\-\s]`) are the
corresponding ASCII `Char` predicates.
-/

namespace CFWOD

/-- Does `needle` occur as a contiguous sublist of `hay`?  Checked at every
suffix of `hay`. -/
def listInfixCheck : List Char → List Char → Bool
  | needle, [] => needle.isEmpty
  | needle, c :: cs => needle.isPrefixOf (c :: cs) || listInfixCheck needle cs

/-- Python `needle in hay` substring containment. -/
def strContains (hay needle : String) : Bool :=
  listInfixCheck needle.toList hay.toList

/-- Drop leading whitespace characters. -/
def dropLeadingWs : List Char → List Char
  | [] => []
  | c :: cs => if c.isWhitespace then dropLeadingWs cs else c :: cs

/-- Python `s.strip()`: remove leading and trailing whitespace. -/
def pyStrip (s : String) : String :=
  String.mk ((dropLeadingWs (dropLeadingWs s.toList).reverse).reverse)

/-- Python `s.lower()`. -/
def pyLower (s : String) : String :=
  String.mk (s.toList.map Char.toLower)

/-- Python `s.startswith(pre)`. -/
def pyStartsWith (s pre : String) : Bool :=
  pre.toList.isPrefixOf s.toList

/-- Helper for `pySplitNl`; the accumulator holds the current piece
reversed. -/
def pySplitNlAux : List Char → List Char → List String
  | [], acc => [String.mk acc.reverse]
  | c :: cs, acc =>
    if c = '\n' then String.mk acc.reverse :: pySplitNlAux cs []
    else pySplitNlAux cs (c :: acc)

/-- Python `s.split('\n')`: split at every newline, keeping empty pieces. -/
def pySplitNl (s : String) : List String :=
  pySplitNlAux s.toList []

/-- Python `sep.join(parts)`. -/
def joinWith (sep : String) : List String → String
  | [] => ""
  | a :: as => as.foldl (fun acc x => acc ++ sep ++ x) a

/-- Python `any(phrase in hay for phrase in needles)`. -/
def containsAny (hay : String) (needles : List String) : Bool :=
  needles.any (fun n => strContains hay n)

/-- Promotional phrases skipped in bold-title candidates (source line 155). -/
def skip_phrases : List String :=
  ["watch now", "are live", "shop", "buy", "sale", "click here", "subscribe"]

/-- Boilerplate phrases skipped in heading-title candidates (source lines 172-176). -/
def heading_skip_patterns : List String :=
  ["workout of the day", "wod", "scaling", "stimulus", "strategy",
   "coaching", "resources", "post", "compare", "intermediate option", "beginner option",
   "comments"]

/-- Keywords that make a bold span look like a title (source line 163). -/
def games_keywords : List String := ["games", "hero", "benchmark"]

/-- Workout-start indicator phrases (source lines 213 and 219). -/
def start_indicators : List String :=
  ["for time:", "amrap", "emom", "rounds for time:", "complete:"]

/-- Body-terminating section markers (source lines 224-225). -/
def section_markers : List String :=
  ["stimulus", "scaling", "intermediate option", "beginner option",
   "coaching", "resources", "comments", "post time"]

/-- Military-rank tokens for hero detection (source lines 320-321). -/
def hero_indicators : List String :=
  ["lt.", "lieutenant", "sgt.", "sergeant", "cpl.", "corporal",
   "pfc.", "private", "captain", "major", "colonel"]

/-- Memorial-language phrases for hero detection (source line 322). -/
def hero_phrases : List String :=
  ["fallen", "killed in action", "kia", "memorial", "died", "gave his life", "gave her life"]

/-- Reference-only guard of the hero rule (source lines 326-328). -/
def isReferenceOnly (page_text : String) : Bool :=
  strContains page_text "reminiscent of a hero workout" ||
  strContains page_text "similar to" ||
  strContains page_text "like the hero workout"

/-- Matcher for `\s*\d` used after the literal `event` and one whitespace
in the regex `event\s+\d+`. -/
def wsStarDigit : List Char → Bool
  | [] => false
  | c :: cs => c.isDigit || (c.isWhitespace && wsStarDigit cs)

/-- Matcher for `\s+\d` (one whitespace, then possibly more, then a digit). -/
def wsPlusDigit : List Char → Bool
  | [] => false
  | c :: cs => c.isWhitespace && wsStarDigit cs

/-- Does the character list start with `event\s+\d+`? (`\d+`/trailing part
beyond the first digit is irrelevant to `re.search` success.) -/
def eventNumHere : List Char → Bool
  | 'e' :: 'v' :: 'e' :: 'n' :: 't' :: rest => wsPlusDigit rest
  | _ => false

/-- `re.search(r'event\s+\d+', ·)`: the pattern occurs at some position. -/
def searchEventNum : List Char → Bool
  | [] => false
  | c :: cs => eventNumHere (c :: cs) || searchEventNum cs

/-- Source line 160: `re.search(r'event\s+\d+', text.lower())`. -/
def hasEventNum (text : String) : Bool :=
  searchEventNum (pyLower text).toList

/-- ASCII model of Python `str.isupper()`: at least one letter and no
lowercase letter. -/
def pyIsUpper (s : String) : Bool :=
  s.toList.any Char.isAlpha && s.toList.all (fun c => !c.isLower)

/-- Walker for `pyIsTitle`; the flag records whether the previous character
was cased (a letter). -/
def pyIsTitleGo : List Char → Bool → Bool
  | [], _ => true
  | c :: cs, prev =>
    if c.isUpper then !prev && pyIsTitleGo cs true
    else if c.isLower then prev && pyIsTitleGo cs true
    else pyIsTitleGo cs false

/-- ASCII model of Python `str.istitle()`: uppercase letters only follow
uncased characters, lowercase letters only follow cased ones, and at least
one letter occurs. -/
def pyIsTitle (s : String) : Bool :=
  pyIsTitleGo s.toList false && s.toList.any Char.isAlpha

/-- `re.match(r'^[A-Z][a-z]+$', text)` (source line 180). -/
def capWordMatch (s : String) : Bool :=
  match s.toList with
  | [] => false
  | c :: cs => c.isUpper && !cs.isEmpty && cs.all Char.isLower

/-- Source line 165: `text.isupper() or (text[0].isupper() and not
any(c.islower() for c in text[1:]))`. -/
def boldUpperBranch (t : String) : Bool :=
  pyIsUpper t ||
    (match t.toList with
     | [] => false
     | c :: cs => c.isUpper && !cs.any Char.isLower)

/-- One step of the bold-candidate loop (source lines 151-166); Python's
`potential_titles.insert(0, text)` prepends, the other accepting branches
append. -/
def processBold (acc : List String) (raw : String) : List String :=
  let text := pyStrip raw
  if ¬ text = "" ∧ 5 < text.length ∧ text.length ≤ 50 then
    if containsAny (pyLower text) skip_phrases = true then acc
    else if hasEventNum text = true then text :: acc
    else if containsAny (pyLower text) games_keywords = true then acc ++ [text]
    else if boldUpperBranch text = true then acc ++ [text]
    else acc
  else acc

/-- The candidate list produced by the bold/strong loop. -/
def boldCandidates (bolds : List String) : List String :=
  bolds.foldl processBold []

/-- One step of the heading loop (source lines 169-183); accepting headings
are always appended. -/
def processHeading (acc : List String) (raw : String) : List String :=
  let text := pyStrip raw
  if ¬ text = "" ∧ text.length ≤ 50 ∧ containsAny (pyLower text) heading_skip_patterns = false then
    if pyIsUpper text || pyIsTitle text || capWordMatch text ||
        strContains (pyLower text) "games" || strContains (pyLower text) "event" then
      acc ++ [text]
    else acc
  else acc

/-- The candidates appended by the heading loop. -/
def headingCandidates (headings : List String) : List String :=
  headings.foldl processHeading []

/-- Workout-body collection loop (source lines 203-231).  The
`workout_title_candidate` assignment of lines 211-216 is dead code (the
variable is never read) and is omitted.  The Boolean argument is the
`found_workout` flag. -/
def collectBody : List String → Bool → List String
  | [], _ => []
  | l :: rest, found =>
    let line := pyStrip l
    if line = "" ∨ strContains (pyLower line) "commented on:" = true then
      collectBody rest found
    else
      let found2 := found || containsAny (pyLower line) start_indicators
      if found2 = true then
        if containsAny (pyLower line) section_markers = true then []
        else if ¬ line = "" ∧ pyStartsWith line "**" = false then
          line :: collectBody rest found2
        else collectBody rest found2
      else collectBody rest found2

/-- Character class `[a-zA-Z\-\s]` of the movement regex. -/
def isMoveChar (c : Char) : Bool :=
  c.isAlpha || c = '-' || c.isWhitespace

/-- Group 1 of `(\d+(?:,\d+)?(?:-meter|-mile)?)\s+([a-zA-Z\-\s]+?)(?=\n|,|$)`:
a digit run, an optional comma-digit run, an optional `-meter`/`-mile`
suffix.  Returns the matched characters and the remainder.  (The greedy
subparts admit no successful backtracking: shortening a digit run leaves a
digit, which matches neither `,`, the suffix, nor `\s`.) -/
def matchQuantity (l : List Char) : Option (List Char × List Char) :=
  let (ds, rest) := l.span Char.isDigit
  if ds.isEmpty then none
  else
    let (g, rest2) :=
      match rest with
      | ',' :: r =>
        let (ds2, r2) := r.span Char.isDigit
        if ds2.isEmpty then (ds, rest) else (ds ++ ',' :: ds2, r2)
      | _ => (ds, rest)
    if "-meter".toList.isPrefixOf rest2 then some (g ++ "-meter".toList, rest2.drop 6)
    else if "-mile".toList.isPrefixOf rest2 then some (g ++ "-mile".toList, rest2.drop 5)
    else some (g, rest2)

/-- The lookahead `(?=\n|,|$)` on newline-free input: success when the
remainder is empty or starts with a comma. -/
def lookaheadOk : List Char → Bool
  | [] => true
  | c :: _ => c = ','

/-- Try the whole movement pattern at the head of the input; on success
return group 1, group 2 and the unconsumed remainder (the lookahead
consumes nothing).  After group 1, greedy `\s+` first takes the maximal
whitespace run `ws`; since `,` is not in the class `[a-zA-Z\-\s]` and the
input is newline-free, the only position where the lazy group 2 can
satisfy the lookahead is the end of the run of class characters that
follows.  If at least one class character follows the whitespace, group 2
is exactly that run, accepted when the lookahead holds at its end.  If
none does, the engine backtracks `\s+` by one character and group 2 is the
last whitespace character of the run — possible only when the run has
length at least 2 and the lookahead holds right after it. -/
def matchMovementAt (l : List Char) : Option (String × String × List Char) :=
  match matchQuantity l with
  | none => none
  | some (g1, rest) =>
    let (ws, rest2) := rest.span Char.isWhitespace
    if ws.isEmpty then none
    else
      let (run, restAfter) := rest2.span isMoveChar
      if run.isEmpty then
        if 2 ≤ ws.length ∧ lookaheadOk rest2 = true then
          some (String.mk g1, String.mk (ws.drop (ws.length - 1)), rest2)
        else none
      else
        if lookaheadOk restAfter = true then
          some (String.mk g1, String.mk run, restAfter)
        else none

/-- `re.findall` driver: scan left to right, restarting after each match at
its end (the lookahead consumes nothing).  Fuel is the input length; every
step strictly shortens the input, so the fuel never runs out. -/
def findAux : Nat → List Char → List (String × String)
  | 0, _ => []
  | _ + 1, [] => []
  | fuel + 1, c :: cs =>
    match matchMovementAt (c :: cs) with
    | some (g1, g2, rest) => (g1, g2) :: findAux fuel rest
    | none => findAux fuel cs

/-- All matches of the movement pattern in one line (source line 245). -/
def findMovementMatches (l : List Char) : List (String × String) :=
  findAux l.length l

/-- Movement strings extracted from one body line (source lines 244-250):
`f"{match[0]} {match[1].strip()}"`, kept when `3 < len(movement) < 50`. -/
def lineMovements (line : String) : List String :=
  (findMovementMatches line.toList).filterMap (fun m =>
    let movement := m.1 ++ " " ++ pyStrip m.2
    if 3 < movement.length ∧ movement.length < 50 then some movement else none)

/-- `list(dict.fromkeys(·))`: drop duplicates keeping the first occurrence
of each string, in order. -/
def dedupKeepFirst : List String → List String
  | [] => []
  | x :: xs => x :: (dedupKeepFirst xs).filter (fun y => y != x)

/-- Bounded window collector shared by the scaling/stimulus/option scans
(source lines 263-271, 281-289, 305-313): over at most the next 9 lines,
skip blank lines, stop at any closing marker, skip `**`-prefixed lines. -/
def collectWindow : List String → List String → List String
  | [], _ => []
  | l :: rest, markers =>
    let next_line := pyStrip l
    if next_line = "" then collectWindow rest markers
    else if containsAny (pyLower next_line) markers = true then []
    else if ¬ next_line = "" ∧ pyStartsWith next_line "**" = false then
      next_line :: collectWindow rest markers
    else collectWindow rest markers

/-- Method 1 of scaling extraction (source lines 258-272): the window after
the first line containing `scaling:`; each collected line becomes its own
part. -/
def scalingSectionParts (lines : List String) : List String :=
  match lines.findIdx? (fun l => strContains (pyLower l) "scaling:") with
  | some i =>
    collectWindow ((lines.drop (i + 1)).take 9)
      ["intermediate option:", "beginner option:", "coaching", "resources", "stimulus"]
  | none => []

/-- Method 2 of scaling extraction (source lines 275-292): for every line
containing the option marker, the raw header line plus its window; kept
only when at least one body line beyond the header was collected. -/
def optionBlocks (lines : List String) (option_type : String) : List String :=
  (List.range lines.length).filterMap (fun i =>
    match lines[i]? with
    | some line =>
      if strContains (pyLower line) option_type = true then
        let block := line :: collectWindow ((lines.drop (i + 1)).take 9)
          ["option:", "coaching", "resources", "stimulus", "comments"]
        if 1 < block.length then some (joinWith "\n" block) else none
      else none
    | none => none)

/-- Stimulus extraction (source lines 301-314): the window after the first
line containing `stimulus and strategy:` or `stimulus:`. -/
def stimulusLines (lines : List String) : List String :=
  match lines.findIdx? (fun l =>
      strContains (pyLower l) "stimulus and strategy:" || strContains (pyLower l) "stimulus:") with
  | some i =>
    collectWindow ((lines.drop (i + 1)).take 9)
      ["scaling:", "intermediate option:", "beginner option:", "coaching", "resources"]
  | none => []

/-- The page as consumed by `_extract_workout_content` after comment
removal: bold/strong texts, h1-h3 texts, and the flattened page text. -/
structure Soup where
  boldTexts : List String
  headingTexts : List String
  allText : String

/-- The `content` dictionary built by `_extract_workout_content`. -/
structure Content where
  title : String
  description : String
  movements : List String
  scaling : String
  stimulus : String
  is_named_workout : Bool
  is_hero_workout : Bool
  is_rest_day : Bool

/-- `lines = all_text.split('\n')` (source line 201). -/
def soupLines (soup : Soup) : List String :=
  pySplitNl soup.allText

/-- The raw movement strings found in the collected body lines, before
deduplication and truncation (source lines 243-250 accumulation). -/
def rawMovements (soup : Soup) : List String :=
  ((collectBody (soupLines soup) false).map lineMovements).flatten

/-- `CrossFitWODScraper._extract_workout_content` (source lines 113-334).
The redundant `games` re-check of lines 190-192 sets a flag that is already
true and is omitted as a no-op. -/
def extractWorkoutContent (soup : Soup) (date_str : String) : Content :=
  let page_text := pyLower soup.allText
  if strContains page_text "rest day" = true then
    { title := date_str
      description := "Rest Day - Recovery and mobility work recommended"
      movements := []
      scaling := ""
      stimulus := ""
      is_named_workout := false
      is_hero_workout := false
      is_rest_day := true }
  else
    let potential_titles := boldCandidates soup.boldTexts ++ headingCandidates soup.headingTexts
    let title := potential_titles.headD date_str
    let named := !potential_titles.isEmpty
    let lines := soupLines soup
    let workout_lines := collectBody lines false
    let description :=
      if workout_lines.isEmpty then "" else joinWith "\n" (workout_lines.take 10)
    let movements := (dedupKeepFirst ((workout_lines.map lineMovements).flatten)).take 8
    let scaling_parts :=
      scalingSectionParts lines ++
      optionBlocks lines "intermediate option:" ++
      optionBlocks lines "beginner option:"
    let scaling :=
      if scaling_parts.isEmpty then "" else joinWith "\n\n" scaling_parts
    let stim_lines := stimulusLines lines
    let stimulus := if stim_lines.isEmpty then "" else joinWith " " stim_lines
    let has_military_rank := containsAny page_text hero_indicators
    let has_memorial_language := containsAny page_text hero_phrases
    let is_reference_only := isReferenceOnly page_text
    let hero := has_military_rank && has_memorial_language && !is_reference_only
    { title := title
      description := description
      movements := movements
      scaling := scaling
      stimulus := stimulus
      is_named_workout := named || hero
      is_hero_workout := hero
      is_rest_day := false }

/-! ### Example pages used as witnesses -/

/-- A rest-day page that also carries other content. -/
def exRestPage : Soup :=
  { boldTexts := ["2025 Games Event 1"], headingTexts := [],
    allText := "Rest Day\nSgt. Smith died in action.\nFor time:\n21 Thrusters" }

/-- A second rest-day page, with hero signals and candidate bolds. -/
def exRestPage2 : Soup :=
  { boldTexts := ["HEAVY SQUATS DAY"], headingTexts := [],
    allText := "Today is a rest day. Lt. Jones, killed in action, memorial." }

/-- A hero-workout page. -/
def exHeroPage : Soup :=
  { boldTexts := [], headingTexts := [], allText := "Sgt. Dan died a hero.\nFor time: 21 thrusters" }

/-- A second hero-workout page. -/
def exHeroPage2 : Soup :=
  { boldTexts := [], headingTexts := [], allText := "Cpl. Ann gave her life. fallen" }

/-! ### C1: rest-day rule -/

/-- C1: whenever the lowercased page text contains "rest day", the record is
marked as a rest day, the description is the fixed rest-day constant, and
movements, scaling and stimulus are empty, whatever else the page holds. -/
theorem c1_rest_day (soup : Soup) (date_str : String)
    (h : strContains (pyLower soup.allText) "rest day" = true) :
    (extractWorkoutContent soup date_str).is_rest_day = true ∧
    (extractWorkoutContent soup date_str).description =
      "Rest Day - Recovery and mobility work recommended" ∧
    (extractWorkoutContent soup date_str).movements = [] ∧
    (extractWorkoutContent soup date_str).scaling = "" ∧
    (extractWorkoutContent soup date_str).stimulus = "" := by
  simp [extractWorkoutContent, h]

/-- Witness for C1 at a concrete rest-day page. -/
theorem c1_rest_day_witness :
    (extractWorkoutContent exRestPage "250101").is_rest_day = true ∧
    (extractWorkoutContent exRestPage "250101").description =
      "Rest Day - Recovery and mobility work recommended" ∧
    (extractWorkoutContent exRestPage "250101").movements = [] ∧
    (extractWorkoutContent exRestPage "250101").scaling = "" ∧
    (extractWorkoutContent exRestPage "250101").stimulus = "" :=
  c1_rest_day exRestPage "250101" (by decide)

/-! ### C10: rest-day short-circuit skips title and hero classification -/

/-- C10: on a rest-day page the early return fires before title and hero
classification, so the title is the date code and both the named-workout
and hero-workout flags are false, even when title candidates or hero
signals are present. -/
theorem c10_rest_day_short_circuit (soup : Soup) (date_str : String)
    (h : strContains (pyLower soup.allText) "rest day" = true) :
    (extractWorkoutContent soup date_str).title = date_str ∧
    (extractWorkoutContent soup date_str).is_named_workout = false ∧
    (extractWorkoutContent soup date_str).is_hero_workout = false := by
  simp [extractWorkoutContent, h]

/-- Witness for C10 at a concrete rest-day page that carries both a bold
title candidate and hero rank/memorial signals. -/
theorem c10_rest_day_short_circuit_witness :
    (extractWorkoutContent exRestPage2 "250102").title = "250102" ∧
    (extractWorkoutContent exRestPage2 "250102").is_named_workout = false ∧
    (extractWorkoutContent exRestPage2 "250102").is_hero_workout = false :=
  c10_rest_day_short_circuit exRestPage2 "250102" (by decide)

/-! ### C2: hero-workout rule -/

/-- C2: on a non-rest-day page, the hero flag is true exactly when the
lowercased page text contains a military-rank token and a memorial-language
phrase and no reference-only phrase. -/
theorem c2_hero_iff (soup : Soup) (date_str : String)
    (h : strContains (pyLower soup.allText) "rest day" = false) :
    (extractWorkoutContent soup date_str).is_hero_workout = true ↔
      (containsAny (pyLower soup.allText) hero_indicators = true ∧
       containsAny (pyLower soup.allText) hero_phrases = true ∧
       isReferenceOnly (pyLower soup.allText) = false) := by
  simp only [extractWorkoutContent, h]
  simp [Bool.and_eq_true, Bool.not_eq_true', and_assoc]

/-- Witness for C2 at a concrete hero page. -/
theorem c2_hero_iff_witness :
    (extractWorkoutContent exHeroPage "250103").is_hero_workout = true ↔
      (containsAny (pyLower exHeroPage.allText) hero_indicators = true ∧
       containsAny (pyLower exHeroPage.allText) hero_phrases = true ∧
       isReferenceOnly (pyLower exHeroPage.allText) = false) :=
  c2_hero_iff exHeroPage "250103" (by decide)

/-! ### C9: hero implies named -/

/-- C9: no record has the hero flag set without the named flag: whenever
hero classification fires, the named-workout flag is forced true. -/
theorem c9_hero_implies_named (soup : Soup) (date_str : String)
    (h : (extractWorkoutContent soup date_str).is_hero_workout = true) :
    (extractWorkoutContent soup date_str).is_named_workout = true := by
  by_cases hr : strContains (pyLower soup.allText) "rest day" = true
  · simp [extractWorkoutContent, hr] at h
  · simp only [extractWorkoutContent, hr] at h ⊢
    simp_all

/-- Witness for C9 at a concrete hero page. -/
theorem c9_hero_implies_named_witness :
    (extractWorkoutContent exHeroPage2 "250104").is_named_workout = true :=
  c9_hero_implies_named exHeroPage2 "250104" (by decide)

/-! ### C3: movements are deduplicated, ordered, at most 8 -/

/-- `dedupKeepFirst` never produces duplicates. -/
theorem dedupKeepFirst_nodup : ∀ l : List String, (dedupKeepFirst l).Nodup
  | [] => List.nodup_nil
  | x :: xs => by
    simp only [dedupKeepFirst, List.nodup_cons]
    refine ⟨fun hx => ?_, (dedupKeepFirst_nodup xs).filter _⟩
    have hne := (List.mem_filter.mp hx).2
    simp at hne

/-- `dedupKeepFirst` keeps a subsequence of the input, so first-occurrence
order is preserved. -/
theorem dedupKeepFirst_sublist : ∀ l : List String, List.Sublist (dedupKeepFirst l) l
  | [] => List.Sublist.refl []
  | x :: xs => by
    simp only [dedupKeepFirst]
    exact List.Sublist.cons₂ x ((List.filter_sublist _).trans (dedupKeepFirst_sublist xs))

/-- C3: the movements list has at most 8 entries, no duplicate strings, and
is a subsequence of the raw movement strings found in the collected body
lines, so insertion order is preserved. -/
theorem c3_movements_invariants (soup : Soup) (date_str : String) :
    (extractWorkoutContent soup date_str).movements.length ≤ 8 ∧
    (extractWorkoutContent soup date_str).movements.Nodup ∧
    List.Sublist (extractWorkoutContent soup date_str).movements (rawMovements soup) := by
  by_cases hr : strContains (pyLower soup.allText) "rest day" = true
  · simp [extractWorkoutContent, hr, List.nil_sublist]
  · simp only [extractWorkoutContent, hr, if_false, Bool.false_eq_true]
    refine ⟨List.length_take_le _ _, ?_, ?_⟩
    · exact (dedupKeepFirst_nodup _).sublist (List.take_sublist _ _)
    · exact (List.take_sublist _ _).trans (dedupKeepFirst_sublist _)

/-! ### C4: description bounds (corrected: rest days break the second clause) -/

/-- A page whose text has no workout-start indicator but is a rest day. -/
def exRestNoStart : Soup :=
  { boldTexts := [], headingTexts := [], allText := "Today is a rest day, enjoy" }

/-- A plain page with neither rest-day text nor a start indicator. -/
def exPlainPage : Soup :=
  { boldTexts := [], headingTexts := [], allText := "hello world\nnothing here" }

/-- Counterexample to C4 as stated: this page contains no workout-start
indicator on any line, yet its description is the (non-empty) rest-day
constant rather than the empty string. -/
theorem c4_counterexample :
    (soupLines exRestNoStart).all
      (fun l => !(containsAny (pyLower (pyStrip l)) start_indicators)) = true ∧
    (extractWorkoutContent exRestNoStart "250105").description =
      "Rest Day - Recovery and mobility work recommended" ∧
    ("Rest Day - Recovery and mobility work recommended" : String) ≠ "" :=
  ⟨by decide, by decide, by decide⟩

/-- If no line contains a workout-start indicator, the body loop collects
nothing. -/
theorem collectBody_eq_nil (lines : List String)
    (h : ∀ l ∈ lines, containsAny (pyLower (pyStrip l)) start_indicators = false) :
    collectBody lines false = [] := by
  induction lines with
  | nil => rfl
  | cons l rest ih =>
    have hl := h l (List.mem_cons_self _ _)
    have ht : ∀ x ∈ rest, containsAny (pyLower (pyStrip x)) start_indicators = false :=
      fun x hx => h x (List.mem_cons_of_mem _ hx)
    simp only [collectBody, hl, Bool.or_false]
    split
    · exact ih ht
    · simpa using ih ht

/-- Characters of `dropLeadingWs` come from the input list. -/
theorem mem_dropLeadingWs : ∀ (l : List Char) (c : Char), c ∈ dropLeadingWs l → c ∈ l := by
  intro l
  induction l with
  | nil =>
    intro c h
    cases h
  | cons x xs ih =>
    intro c h
    simp only [dropLeadingWs] at h
    by_cases hx : x.isWhitespace = true
    · rw [if_pos hx] at h
      exact List.mem_cons_of_mem _ (ih c h)
    · rw [if_neg hx] at h
      exact h

/-- `pyStrip` introduces no new characters. -/
theorem mem_pyStrip (s : String) (c : Char) (h : c ∈ (pyStrip s).toList) : c ∈ s.toList := by
  have h1 : c ∈ dropLeadingWs (dropLeadingWs s.toList).reverse := by
    simpa [pyStrip] using h
  have h2 : c ∈ dropLeadingWs s.toList :=
    List.mem_reverse.mp (mem_dropLeadingWs _ _ h1)
  exact mem_dropLeadingWs _ _ h2

/-- Pieces produced by `pySplitNlAux` contain no newline, given a
newline-free accumulator. -/
theorem pySplitNlAux_no_newline :
    ∀ (cs acc : List Char), (∀ c ∈ acc, c ≠ '\n') →
      ∀ s ∈ pySplitNlAux cs acc, ∀ c ∈ s.toList, c ≠ '\n' := by
  intro cs
  induction cs with
  | nil =>
    intro acc hacc s hs c hc
    simp only [pySplitNlAux, List.mem_singleton] at hs
    subst hs
    exact hacc c (List.mem_reverse.mp hc)
  | cons x xs ih =>
    intro acc hacc s hs c hc
    simp only [pySplitNlAux] at hs
    by_cases hx : x = '\n'
    · rw [if_pos hx] at hs
      rcases List.mem_cons.mp hs with rfl | hs'
      · exact hacc c (List.mem_reverse.mp hc)
      · exact ih [] (fun d hd => absurd hd (List.not_mem_nil d)) s hs' c hc
    · rw [if_neg hx] at hs
      refine ih (x :: acc) ?_ s hs c hc
      intro d hd
      rcases List.mem_cons.mp hd with rfl | hd'
      · exact hx
      · exact hacc d hd'

/-- Lines produced by `pySplitNl` contain no newline. -/
theorem pySplitNl_no_newline (t : String) :
    ∀ s ∈ pySplitNl t, ∀ c ∈ s.toList, c ≠ '\n' :=
  pySplitNlAux_no_newline t.toList [] (fun d hd => absurd hd (List.not_mem_nil d))

/-- Every collected body line is the strip of some input line. -/
theorem collectBody_mem_strip :
    ∀ (lines : List String) (found : Bool) (x : String),
      x ∈ collectBody lines found → ∃ l ∈ lines, x = pyStrip l := by
  intro lines
  induction lines with
  | nil =>
    intro found x h
    cases h
  | cons l rest ih =>
    intro found x h
    simp only [collectBody] at h
    split at h
    · obtain ⟨l', hl', hx⟩ := ih _ _ h
      exact ⟨l', List.mem_cons_of_mem _ hl', hx⟩
    · split at h
      · split at h
        · cases h
        · split at h
          · rcases List.mem_cons.mp h with rfl | h'
            · exact ⟨l, List.mem_cons_self _ _, rfl⟩
            · obtain ⟨l', hl', hx⟩ := ih _ _ h'
              exact ⟨l', List.mem_cons_of_mem _ hl', hx⟩
          · obtain ⟨l', hl', hx⟩ := ih _ _ h
            exact ⟨l', List.mem_cons_of_mem _ hl', hx⟩
      · obtain ⟨l', hl', hx⟩ := ih _ _ h
        exact ⟨l', List.mem_cons_of_mem _ hl', hx⟩

/-- Collected body lines inherit newline-freeness from the split. -/
theorem collectBody_no_newline (soup : Soup) :
    ∀ x ∈ collectBody (soupLines soup) false, ∀ c ∈ x.toList, c ≠ '\n' := by
  intro x hx c hc
  obtain ⟨l, hl, rfl⟩ := collectBody_mem_strip (soupLines soup) false x hx
  exact pySplitNl_no_newline soup.allText l hl c (mem_pyStrip l c hc)

/-- Splitting a newline-free character list yields a single piece. -/
theorem pySplitNlAux_length_no_newline :
    ∀ (cs acc : List Char), (∀ c ∈ cs, c ≠ '\n') → (pySplitNlAux cs acc).length = 1 := by
  intro cs
  induction cs with
  | nil =>
    intro acc _
    rfl
  | cons x xs ih =>
    intro acc hx
    simp only [pySplitNlAux]
    rw [if_neg (hx x (List.mem_cons_self _ _))]
    exact ih _ (fun c hc => hx c (List.mem_cons_of_mem _ hc))

/-- `pySplitNlAux` walks over a newline-free prefix, accumulating it. -/
theorem pySplitNlAux_append_no_newline :
    ∀ (xs ys acc : List Char), (∀ c ∈ xs, c ≠ '\n') →
      pySplitNlAux (xs ++ ys) acc = pySplitNlAux ys (xs.reverse ++ acc) := by
  intro xs
  induction xs with
  | nil =>
    intro ys acc _
    simp
  | cons x xs ih =>
    intro ys acc hx
    have hxn : ¬ x = '\n' := hx x (List.mem_cons_self _ _)
    simp only [List.cons_append, pySplitNlAux]
    rw [if_neg hxn]
    simp only [List.append_eq]
    rw [ih ys (x :: acc) (fun c hc => hx c (List.mem_cons_of_mem _ hc))]
    congr 1
    simp

/-- `joinWith` over a cons with non-empty tail. -/
theorem joinWith_cons (sep : String) :
    ∀ (rest : List String) (a : String), rest ≠ [] →
      joinWith sep (a :: rest) = a ++ sep ++ joinWith sep rest := by
  intro rest
  induction rest with
  | nil =>
    intro a h
    exact absurd rfl h
  | cons b bs ih =>
    intro a _
    by_cases hbs : bs = []
    · subst hbs
      rfl
    · have h1 : joinWith sep (a :: b :: bs) = joinWith sep ((a ++ sep ++ b) :: bs) := rfl
      rw [h1, ih _ hbs, ih _ hbs]
      simp [String.append_assoc]

/-- Joining `n` newline-free lines with a newline and splitting again gives
back `n` pieces. -/
theorem pySplitNl_joinWith_length :
    ∀ (l : List String), (∀ s ∈ l, ∀ c ∈ s.toList, c ≠ '\n') → l ≠ [] →
      (pySplitNl (joinWith "\n" l)).length = l.length := by
  intro l
  induction l with
  | nil =>
    intro _ h
    exact absurd rfl h
  | cons a rest ih =>
    intro hl _
    have ha : ∀ c ∈ a.toList, c ≠ '\n' := hl a (List.mem_cons_self _ _)
    by_cases hrest : rest = []
    · subst hrest
      show (pySplitNlAux a.toList []).length = 1
      exact pySplitNlAux_length_no_newline a.toList [] ha
    · rw [joinWith_cons "\n" rest a hrest]
      have htl : (a ++ "\n" ++ joinWith "\n" rest).toList =
          a.toList ++ '\n' :: (joinWith "\n" rest).toList := by
        show (a ++ "\n" ++ joinWith "\n" rest).data = a.data ++ '\n' :: (joinWith "\n" rest).data
        rw [String.data_append, String.data_append, List.append_assoc]
        rfl
      show (pySplitNlAux (a ++ "\n" ++ joinWith "\n" rest).toList []).length = _
      rw [htl, pySplitNlAux_append_no_newline a.toList _ [] ha]
      have hstep : pySplitNlAux ('\n' :: (joinWith "\n" rest).toList) (a.toList.reverse ++ []) =
          String.mk (a.toList.reverse ++ []).reverse ::
            pySplitNlAux (joinWith "\n" rest).toList [] := by
        simp only [pySplitNlAux]
        simp
      rw [hstep]
      simp only [List.length_cons]
      show (pySplitNl (joinWith "\n" rest)).length + 1 = rest.length + 1
      rw [ih (fun s hs => hl s (List.mem_cons_of_mem _ hs)) hrest]

/-- C4 amended: the description always splits into at most 10
newline-separated lines, and on a page that is not a rest day and has no
workout-start indicator line the description is empty (on a rest-day page
it is instead the fixed rest-day constant). -/
theorem c4_description_amended (soup : Soup) (date_str : String) :
    (pySplitNl (extractWorkoutContent soup date_str).description).length ≤ 10 ∧
    (strContains (pyLower soup.allText) "rest day" = false →
      (∀ l ∈ soupLines soup, containsAny (pyLower (pyStrip l)) start_indicators = false) →
      (extractWorkoutContent soup date_str).description = "") := by
  by_cases hr : strContains (pyLower soup.allText) "rest day" = true
  · refine ⟨?_, fun hnr => ?_⟩
    · have hdesc : (extractWorkoutContent soup date_str).description =
          "Rest Day - Recovery and mobility work recommended" := by
        simp [extractWorkoutContent, hr]
      rw [hdesc]
      decide
    · rw [hr] at hnr
      cases hnr
  · constructor
    · simp only [extractWorkoutContent, hr, if_false, Bool.false_eq_true]
      by_cases hb : (collectBody (soupLines soup) false).isEmpty = true
      · rw [if_pos hb]
        decide
      · rw [if_neg hb]
        have hno : ∀ s ∈ (collectBody (soupLines soup) false).take 10,
            ∀ c ∈ s.toList, c ≠ '\n' :=
          fun s hs => collectBody_no_newline soup s ((List.take_sublist 10 _).subset hs)
        have hne : (collectBody (soupLines soup) false).take 10 ≠ [] := by
          cases hcb : collectBody (soupLines soup) false with
          | nil =>
            rw [hcb] at hb
            exact absurd rfl hb
          | cons x xs => simp
        rw [pySplitNl_joinWith_length _ hno hne]
        exact List.length_take_le _ _
    · intro _ hno
      have hnil := collectBody_eq_nil _ hno
      simp [extractWorkoutContent, hr, hnil]

/-- Witness for the amended C4 at a concrete indicator-free page. -/
theorem c4_description_amended_witness :
    (pySplitNl (extractWorkoutContent exPlainPage "250106").description).length ≤ 10 ∧
    (extractWorkoutContent exPlainPage "250106").description = "" :=
  ⟨(c4_description_amended exPlainPage "250106").1,
   (c4_description_amended exPlainPage "250106").2 (by decide) (by decide)⟩

/-! ### C5: body collection (corrected: `commented on:` lines are skipped) -/

/-- A line the body loop skips outright (source line 207): blank after
stripping, or containing `commented on:`. -/
abbrev skippedLine (l : String) : Prop :=
  pyStrip l = "" ∨ strContains (pyLower (pyStrip l)) "commented on:" = true

/-- A line containing a workout-start indicator. -/
abbrev startLine (l : String) : Prop :=
  containsAny (pyLower (pyStrip l)) start_indicators = true

/-- A line containing a body-terminating section marker. -/
abbrev markerLine (l : String) : Prop :=
  containsAny (pyLower (pyStrip l)) section_markers = true

/-- Counterexample to C5 as stated: after the start indicator, the line
`bob commented on: hi` is non-empty, does not begin with `**`, and contains
no body-terminating marker, yet it is not appended to the collected body
(the code also skips lines containing `commented on:`). -/
theorem c5_counterexample :
    pyStrip "bob commented on: hi" ≠ "" ∧
    pyStartsWith (pyStrip "bob commented on: hi") "**" = false ∧
    containsAny (pyLower (pyStrip "bob commented on: hi")) section_markers = false ∧
    containsAny (pyLower (pyStrip "For time:")) start_indicators = true ∧
    collectBody ["For time:", "bob commented on: hi", "21 thrusters"] false =
      ["For time:", "21 thrusters"] ∧
    "bob commented on: hi" ∉
      collectBody ["For time:", "bob commented on: hi", "21 thrusters"] false :=
  ⟨by decide, by decide, by decide, by decide, by decide, by decide⟩

/-- Once collection is active, a line that is not blank, not a comment
line, not `**`-prefixed and marker-free is appended to the body. -/
theorem collectBody_mem_after_start :
    ∀ (pre : List String) (found : Bool),
      (found = true ∨ ∃ a ∈ pre, ¬ skippedLine a ∧ startLine a) →
      (∀ a ∈ pre, skippedLine a ∨ ¬ markerLine a) →
      ∀ (l : String) (post : List String),
        ¬ skippedLine l → ¬ markerLine l → pyStartsWith (pyStrip l) "**" = false →
        pyStrip l ∈ collectBody (pre ++ l :: post) found := by
  intro pre
  induction pre with
  | nil =>
    intro found hstart _ l post hskip hmarker hbold
    rcases hstart with hf | ⟨a, ha, _⟩
    · subst hf
      simp only [skippedLine] at hskip
      simp only [markerLine] at hmarker
      have h2 : ¬ pyStrip l = "" := fun he => hskip (Or.inl he)
      simp only [List.nil_append, collectBody, hskip, if_false, Bool.true_or]
      simp [hmarker, h2, hbold]
    · cases ha
  | cons p pre' ih =>
    intro found hstart hmark l post hskip hmarker hbold
    have hmtail : ∀ a ∈ pre', skippedLine a ∨ ¬ markerLine a :=
      fun a ha => hmark a (List.mem_cons_of_mem _ ha)
    by_cases hp : skippedLine p
    · have hstep : collectBody ((p :: pre') ++ l :: post) found =
          collectBody (pre' ++ l :: post) found := by
        simp only [skippedLine] at hp
        simp only [List.cons_append, collectBody, hp, if_true]
        rfl
      rw [hstep]
      refine ih found ?_ hmtail l post hskip hmarker hbold
      rcases hstart with hf | ⟨a, ha, hsa⟩
      · exact Or.inl hf
      · rcases List.mem_cons.mp ha with rfl | ha'
        · exact absurd hp hsa.1
        · exact Or.inr ⟨a, ha', hsa⟩
    · have hpm : ¬ markerLine p := (hmark p (List.mem_cons_self _ _)).resolve_left hp
      simp only [skippedLine] at hp
      simp only [markerLine] at hpm
      have hstart2 : (found || containsAny (pyLower (pyStrip p)) start_indicators) = true ∨
          ∃ a ∈ pre', ¬ skippedLine a ∧ startLine a := by
        rcases hstart with hf | ⟨a, ha, hsa⟩
        · subst hf
          exact Or.inl rfl
        · rcases List.mem_cons.mp ha with rfl | ha'
          · simp only [startLine] at hsa
            exact Or.inl (by simp [hsa.2])
          · exact Or.inr ⟨a, ha', hsa⟩
      have hrest := ih (found || containsAny (pyLower (pyStrip p)) start_indicators)
        hstart2 hmtail l post hskip hmarker hbold
      simp only [List.cons_append, collectBody, hp, if_false, List.append_eq]
      by_cases hf2 : (found || containsAny (pyLower (pyStrip p)) start_indicators) = true
      · rw [if_pos hf2, if_neg hpm]
        by_cases hq : ¬ pyStrip p = "" ∧ pyStartsWith (pyStrip p) "**" = false
        · rw [if_pos hq]
          exact List.mem_cons_of_mem _ hrest
        · rw [if_neg hq]
          exact hrest
      · rw [if_neg hf2]
        exact hrest

end CFWOD

namespace CFWOD

/-- Once collection could be active at a marker line, everything from that
line on is discarded: the lines after the first active terminator never
influence the collected body. -/
theorem collectBody_stops_at_marker :
    ∀ (pre : List String) (found : Bool) (t : String),
      (found = true ∨ (∃ a ∈ pre, ¬ skippedLine a ∧ startLine a) ∨ startLine t) →
      ¬ skippedLine t → markerLine t →
      ∀ post : List String,
        collectBody (pre ++ t :: post) found = collectBody (pre ++ [t]) found := by
  intro pre
  induction pre with
  | nil =>
    intro found t hstart hskip hmark post
    simp only [skippedLine] at hskip
    simp only [markerLine] at hmark
    have hf2 : (found || containsAny (pyLower (pyStrip t)) start_indicators) = true := by
      rcases hstart with hf | hs | hs
      · simp [hf]
      · rcases hs with ⟨a, ha, _⟩
        cases ha
      · simp only [startLine] at hs
        simp [hs]
    simp only [List.nil_append, collectBody, hskip, if_false]
    rw [if_pos hf2, if_pos hmark, if_pos hf2, if_pos hmark]
  | cons p pre' ih =>
    intro found t hstart hskip hmark post
    by_cases hp : skippedLine p
    · have e1 : collectBody ((p :: pre') ++ t :: post) found =
          collectBody (pre' ++ t :: post) found := by
        simp only [skippedLine] at hp
        simp only [List.cons_append, collectBody, hp, if_true]
        rfl
      have e2 : collectBody ((p :: pre') ++ [t]) found =
          collectBody (pre' ++ [t]) found := by
        simp only [skippedLine] at hp
        simp only [List.cons_append, collectBody, hp, if_true]
        rfl
      rw [e1, e2]
      refine ih found t ?_ hskip hmark post
      rcases hstart with hf | ⟨a, ha, hsa⟩ | hs
      · exact Or.inl hf
      · rcases List.mem_cons.mp ha with rfl | ha'
        · exact absurd hp hsa.1
        · exact Or.inr (Or.inl ⟨a, ha', hsa⟩)
      · exact Or.inr (Or.inr hs)
    · have hstart2 : (found || containsAny (pyLower (pyStrip p)) start_indicators) = true ∨
          (∃ a ∈ pre', ¬ skippedLine a ∧ startLine a) ∨ startLine t := by
        rcases hstart with hf | ⟨a, ha, hsa⟩ | hs
        · exact Or.inl (by simp [hf])
        · rcases List.mem_cons.mp ha with rfl | ha'
          · have hsp := hsa.2
            simp only [startLine] at hsp
            exact Or.inl (by simp [hsp])
          · exact Or.inr (Or.inl ⟨a, ha', hsa⟩)
        · exact Or.inr (Or.inr hs)
      have hrec := ih (found || containsAny (pyLower (pyStrip p)) start_indicators) t
        hstart2 hskip hmark post
      simp only [skippedLine] at hp
      simp only [List.cons_append, collectBody, hp, if_false, List.append_eq]
      by_cases hf2 : (found || containsAny (pyLower (pyStrip p)) start_indicators) = true
      · rw [if_pos hf2, if_pos hf2]
        by_cases hpm : containsAny (pyLower (pyStrip p)) section_markers = true
        · rw [if_pos hpm, if_pos hpm]
        · rw [if_neg hpm, if_neg hpm]
          by_cases hq : ¬ pyStrip p = "" ∧ pyStartsWith (pyStrip p) "**" = false
          · rw [if_pos hq, if_pos hq, hrec]
          · rw [if_neg hq, if_neg hq, hrec]
      · rw [if_neg hf2, if_neg hf2, hrec]

/-- C5 amended: once a (non-skipped) start-indicator line has been seen,
every later line is appended to the body unless it is empty, begins with
`**`, contains a body-terminating marker, or contains `commented on:`
(comment lines are skipped without ending collection); and reaching a
non-skipped terminator line while collection is active stops collection
entirely — the lines after it never affect the body. -/
theorem c5_body_collection_amended :
    (∀ (pre : List String) (l : String) (post : List String),
      (∃ a ∈ pre, ¬ skippedLine a ∧ startLine a) →
      (∀ a ∈ pre, skippedLine a ∨ ¬ markerLine a) →
      ¬ skippedLine l → ¬ markerLine l → pyStartsWith (pyStrip l) "**" = false →
      pyStrip l ∈ collectBody (pre ++ l :: post) false) ∧
    (∀ (pre : List String) (t : String) (post : List String),
      ((∃ a ∈ pre, ¬ skippedLine a ∧ startLine a) ∨ startLine t) →
      ¬ skippedLine t → markerLine t →
      collectBody (pre ++ t :: post) false = collectBody (pre ++ [t]) false) := by
  constructor
  · intro pre l post h1 h2 h3 h4 h5
    exact collectBody_mem_after_start pre false (Or.inr h1) h2 l post h3 h4 h5
  · intro pre t post h1 h2 h3
    exact collectBody_stops_at_marker pre false t (Or.inr h1) h2 h3 post

/-- Witness for the amended C5 at concrete line sequences. -/
theorem c5_body_collection_amended_witness :
    pyStrip "21 thrusters" ∈ collectBody (["For time:"] ++ "21 thrusters" :: ["junk"]) false ∧
    collectBody (["For time:"] ++ "Stimulus: push hard" :: ["ignored"]) false =
      collectBody (["For time:"] ++ ["Stimulus: push hard"]) false :=
  ⟨c5_body_collection_amended.1 ["For time:"] "21 thrusters" ["junk"]
      ⟨"For time:", by decide, by decide, by decide⟩
      (by decide) (by decide) (by decide) (by decide),
   c5_body_collection_amended.2 ["For time:"] "Stimulus: push hard" ["ignored"]
      (Or.inl ⟨"For time:", by decide, by decide, by decide⟩)
      (by decide) (by decide)⟩

/-! ### C6: bold title-candidate filter (corrected: length exactly 50 is admitted) -/

/-- Counterexample to C6 as stated: a bold span of exactly 50 characters is
admitted as a title candidate, though the claim excludes spans of length 50
or more. -/
theorem c6_counterexample :
    ("AAAAAAAAAAAAAAAAAAAAAAAAAAAAAAAAAAAAAAAAAAAAAAAAAA" : String).length = 50 ∧
    "AAAAAAAAAAAAAAAAAAAAAAAAAAAAAAAAAAAAAAAAAAAAAAAAAA" ∈
      boldCandidates ["AAAAAAAAAAAAAAAAAAAAAAAAAAAAAAAAAAAAAAAAAAAAAAAAAA"] :=
  ⟨by decide, by decide⟩

/-- Anything `processBold` adds to the accumulator passed the length and
promotional-phrase filter. -/
theorem processBold_mem (acc : List String) (b t : String) (h : t ∈ processBold acc b) :
    t ∈ acc ∨ (5 < t.length ∧ t.length ≤ 50 ∧ containsAny (pyLower t) skip_phrases = false) := by
  simp only [processBold] at h
  by_cases hg : ¬ pyStrip b = "" ∧ 5 < (pyStrip b).length ∧ (pyStrip b).length ≤ 50
  · rw [if_pos hg] at h
    by_cases hs : containsAny (pyLower (pyStrip b)) skip_phrases = true
    · rw [if_pos hs] at h
      exact Or.inl h
    · rw [if_neg hs] at h
      have hprom : containsAny (pyLower (pyStrip b)) skip_phrases = false := by
        simpa using hs
      by_cases h1 : hasEventNum (pyStrip b) = true
      · rw [if_pos h1] at h
        rcases List.mem_cons.mp h with rfl | h'
        · exact Or.inr ⟨hg.2.1, hg.2.2, hprom⟩
        · exact Or.inl h'
      · rw [if_neg h1] at h
        by_cases h2 : containsAny (pyLower (pyStrip b)) games_keywords = true
        · rw [if_pos h2] at h
          rcases List.mem_append.mp h with h' | h'
          · exact Or.inl h'
          · have ht : t = pyStrip b := List.mem_singleton.mp h'
            subst ht
            exact Or.inr ⟨hg.2.1, hg.2.2, hprom⟩
        · rw [if_neg h2] at h
          by_cases h3 : boldUpperBranch (pyStrip b) = true
          · rw [if_pos h3] at h
            rcases List.mem_append.mp h with h' | h'
            · exact Or.inl h'
            · have ht : t = pyStrip b := List.mem_singleton.mp h'
              subst ht
              exact Or.inr ⟨hg.2.1, hg.2.2, hprom⟩
          · rw [if_neg h3] at h
            exact Or.inl h
  · rw [if_neg hg] at h
    exact Or.inl h

/-- Fold version of `processBold_mem`. -/
theorem boldCandidates_mem_aux :
    ∀ (bolds acc : List String) (t : String), t ∈ bolds.foldl processBold acc →
      t ∈ acc ∨ (5 < t.length ∧ t.length ≤ 50 ∧ containsAny (pyLower t) skip_phrases = false) := by
  intro bolds
  induction bolds with
  | nil =>
    intro acc t h
    exact Or.inl h
  | cons b bs ih =>
    intro acc t h
    rcases ih (processBold acc b) t h with h' | h'
    · exact processBold_mem acc b t h'
    · exact Or.inr h'

/-- C6 amended: a bold/strong span is admitted as a title candidate only if
its (stripped) length is strictly greater than 5 and at most 50 and it
contains no promotional phrase; spans of length 5 or less, of length
strictly greater than 50, or with a promotional phrase are excluded. -/
theorem c6_bold_candidate_amended (bolds : List String) (t : String)
    (h : t ∈ boldCandidates bolds) :
    5 < t.length ∧ t.length ≤ 50 ∧ containsAny (pyLower t) skip_phrases = false := by
  rcases boldCandidates_mem_aux bolds [] t h with h' | h'
  · cases h'
  · exact h'

/-- Witness for the amended C6 at a concrete admitted candidate. -/
theorem c6_bold_candidate_amended_witness :
    5 < ("2025 GAMES FINAL" : String).length ∧ ("2025 GAMES FINAL" : String).length ≤ 50 ∧
    containsAny (pyLower "2025 GAMES FINAL") skip_phrases = false :=
  c6_bold_candidate_amended ["2025 GAMES FINAL"] "2025 GAMES FINAL" (by decide)

/-! ### C7: Event-N priority (corrected: only on non-rest-day pages) -/

/-- A bold span that passes the candidate filter and matches the Event-N
pattern (it is prepended to the candidate list). -/
abbrev eventCandidateBold (b : String) : Prop :=
  ¬ pyStrip b = "" ∧ 5 < (pyStrip b).length ∧ (pyStrip b).length ≤ 50 ∧
  containsAny (pyLower (pyStrip b)) skip_phrases = false ∧ hasEventNum (pyStrip b) = true

/-- A generic fully-uppercase bold candidate: passes the filter, matches
neither the Event-N pattern nor a games/hero/benchmark keyword, and is
accepted by the uppercase branch. -/
abbrev upperCandidateBold (b : String) : Prop :=
  ¬ pyStrip b = "" ∧ 5 < (pyStrip b).length ∧ (pyStrip b).length ≤ 50 ∧
  containsAny (pyLower (pyStrip b)) skip_phrases = false ∧ hasEventNum (pyStrip b) = false ∧
  containsAny (pyLower (pyStrip b)) games_keywords = false ∧ boldUpperBranch (pyStrip b) = true

/-- A page carrying both an Event-N bold span and an uppercase bold span,
but classified as a rest day. -/
def exC7C : Soup :=
  { boldTexts := ["2025 Games Event 3", "HEAVY SQUATS DAY"], headingTexts := [],
    allText := "Rest day" }

/-- Counterexample to C7 as stated: on this page both an Event-N bold
candidate and a generic fully-uppercase bold candidate are present, yet
the record's title is the date code (the rest-day short-circuit skips
title classification), not the Event-N candidate. -/
theorem c7_counterexample :
    "2025 Games Event 3" ∈ boldCandidates exC7C.boldTexts ∧
    hasEventNum "2025 Games Event 3" = true ∧
    "HEAVY SQUATS DAY" ∈ boldCandidates exC7C.boldTexts ∧
    pyIsUpper "HEAVY SQUATS DAY" = true ∧
    (extractWorkoutContent exC7C "250107").title = "250107" ∧
    hasEventNum "250107" = false :=
  ⟨by decide, by decide, by decide, by decide, by decide, by decide⟩

/-- An Event-N bold span is prepended to the candidate accumulator. -/
theorem processBold_of_event (acc : List String) (b : String) (h : eventCandidateBold b) :
    processBold acc b = pyStrip b :: acc := by
  obtain ⟨h0, h1, h2, h3, h4⟩ := h
  simp only [processBold]
  rw [if_pos ⟨h0, h1, h2⟩, if_neg (by simp [h3]), if_pos h4]

/-- `processBold` keeps an Event-N-matching head at the head: later spans
are appended, never prepended, unless they match Event-N themselves. -/
theorem processBold_head_event (acc : List String) (b : String)
    (h : ∃ hd tl, acc = hd :: tl ∧ hasEventNum hd = true) :
    ∃ hd tl, processBold acc b = hd :: tl ∧ hasEventNum hd = true := by
  obtain ⟨hd, tl, rfl, hhd⟩ := h
  simp only [processBold]
  by_cases hg : ¬ pyStrip b = "" ∧ 5 < (pyStrip b).length ∧ (pyStrip b).length ≤ 50
  · rw [if_pos hg]
    by_cases hs : containsAny (pyLower (pyStrip b)) skip_phrases = true
    · rw [if_pos hs]
      exact ⟨hd, tl, rfl, hhd⟩
    · rw [if_neg hs]
      by_cases h1 : hasEventNum (pyStrip b) = true
      · rw [if_pos h1]
        exact ⟨pyStrip b, hd :: tl, rfl, h1⟩
      · rw [if_neg h1]
        by_cases h2 : containsAny (pyLower (pyStrip b)) games_keywords = true
        · rw [if_pos h2]
          exact ⟨hd, tl ++ [pyStrip b], by simp, hhd⟩
        · rw [if_neg h2]
          by_cases h3 : boldUpperBranch (pyStrip b) = true
          · rw [if_pos h3]
            exact ⟨hd, tl ++ [pyStrip b], by simp, hhd⟩
          · rw [if_neg h3]
            exact ⟨hd, tl, rfl, hhd⟩
  · rw [if_neg hg]
    exact ⟨hd, tl, rfl, hhd⟩

/-- Fold version of `processBold_head_event`. -/
theorem foldl_head_event :
    ∀ (bolds acc : List String),
      (∃ hd tl, acc = hd :: tl ∧ hasEventNum hd = true) →
      ∃ hd tl, bolds.foldl processBold acc = hd :: tl ∧ hasEventNum hd = true := by
  intro bolds
  induction bolds with
  | nil =>
    intro acc h
    exact h
  | cons b bs ih =>
    intro acc h
    exact ih _ (processBold_head_event acc b h)

/-- If some bold span is an Event-N candidate, the candidate list is
non-empty and its head matches the Event-N pattern. -/
theorem boldCandidates_head_event :
    ∀ (bolds acc : List String), (∃ b ∈ bolds, eventCandidateBold b) →
      ∃ hd tl, bolds.foldl processBold acc = hd :: tl ∧ hasEventNum hd = true := by
  intro bolds
  induction bolds with
  | nil =>
    intro acc h
    obtain ⟨b, hb, _⟩ := h
    cases hb
  | cons b bs ih =>
    intro acc h
    obtain ⟨c, hc, hce⟩ := h
    rcases List.mem_cons.mp hc with rfl | hc'
    · exact foldl_head_event bs _ ⟨pyStrip c, acc, processBold_of_event acc c hce, hce.2.2.2.2⟩
    · exact ih _ ⟨c, hc', hce⟩

/-- C7 amended: on a page that is NOT a rest day, when both an Event-N
bold candidate and a generic fully-uppercase bold candidate are present,
the chosen title is an Event-N bold candidate (Event-N candidates are
promoted to the front and the first candidate becomes the title). -/
theorem c7_event_priority_amended (soup : Soup) (date_str : String)
    (hr : strContains (pyLower soup.allText) "rest day" = false)
    (he : ∃ b ∈ soup.boldTexts, eventCandidateBold b)
    (hu : ∃ b ∈ soup.boldTexts, upperCandidateBold b) :
    hasEventNum (extractWorkoutContent soup date_str).title = true ∧
    (extractWorkoutContent soup date_str).title ∈ boldCandidates soup.boldTexts := by
  obtain ⟨hd, tl, hbc, hev⟩ := boldCandidates_head_event soup.boldTexts [] he
  have hbc' : boldCandidates soup.boldTexts = hd :: tl := hbc
  have htitle : (extractWorkoutContent soup date_str).title = hd := by
    simp only [extractWorkoutContent, hr, Bool.false_eq_true, if_false]
    rw [hbc']
    simp
  rw [htitle, hbc']
  exact ⟨hev, List.mem_cons_self _ _⟩

/-- A page with an Event-N bold span, an uppercase bold span, and a
promotional bold span. -/
def exC7W : Soup :=
  { boldTexts := ["Watch Now!!", "2025 Games Event 3", "HEAVY SQUATS DAY"], headingTexts := [],
    allText := "For time: 5 squats" }

/-- Witness for the amended C7 at a concrete page. -/
theorem c7_event_priority_amended_witness :
    hasEventNum (extractWorkoutContent exC7W "250108").title = true ∧
    (extractWorkoutContent exC7W "250108").title ∈ boldCandidates exC7W.boldTexts :=
  c7_event_priority_amended exC7W "250108" (by decide)
    ⟨"2025 Games Event 3", by decide, by decide⟩
    ⟨"HEAVY SQUATS DAY", by decide, by decide⟩

/-! ### C8: scaling option blocks (corrected: fixed order, not document order) -/

/-- A page whose Beginner Option block precedes its Intermediate Option
block in document order. -/
def exC8 : Soup :=
  { boldTexts := [], headingTexts := [],
    allText := "Beginner Option:\n3 rounds\n\nIntermediate Option:\n5 rounds" }

/-- Counterexample to C8 as stated: on this page the Beginner Option block
comes first in the document, yet the scaling field lists the Intermediate
Option block first — the blocks are emitted in the fixed order
intermediate-then-beginner, not in document order. -/
theorem c8_counterexample :
    (extractWorkoutContent exC8 "250109").scaling =
      "Intermediate Option:\n5 rounds\n\nBeginner Option:\n3 rounds" ∧
    (extractWorkoutContent exC8 "250109").scaling ≠
      "Beginner Option:\n3 rounds\n\nIntermediate Option:\n5 rounds" :=
  ⟨by decide, by decide⟩

/-- C8 amended: whenever an Intermediate Option marker and a Beginner
Option marker each yield a qualifying block (at least one body line beyond
the header), the scaling field is the blank-line join of a parts list that
contains the intermediate block and, after it, the beginner block — the
intermediate block always precedes the beginner block regardless of the
order in which they occur in the document (and any parts of a primary
`scaling:` section precede both). -/
theorem c8_scaling_amended (soup : Soup) (date_str : String) (a b : String)
    (hr : strContains (pyLower soup.allText) "rest day" = false)
    (ha : a ∈ optionBlocks (soupLines soup) "intermediate option:")
    (hb : b ∈ optionBlocks (soupLines soup) "beginner option:") :
    ∃ pre mid post : List String,
      (extractWorkoutContent soup date_str).scaling =
        joinWith "\n\n" (pre ++ a :: mid ++ b :: post) := by
  obtain ⟨i1, i2, hi⟩ := List.append_of_mem ha
  obtain ⟨b1, b2, hb2⟩ := List.append_of_mem hb
  refine ⟨scalingSectionParts (soupLines soup) ++ i1, i2 ++ b1, b2, ?_⟩
  simp only [extractWorkoutContent, hr, Bool.false_eq_true, if_false]
  rw [hi, hb2]
  have hne : ¬ ((scalingSectionParts (soupLines soup) ++ (i1 ++ a :: i2) ++
      (b1 ++ b :: b2)).isEmpty = true) := by
    simp
  rw [if_neg hne]
  congr 1
  simp [List.append_assoc]

/-- Witness for the amended C8 at the concrete two-option page. -/
theorem c8_scaling_amended_witness :
    ∃ pre mid post : List String,
      (extractWorkoutContent exC8 "250110").scaling =
        joinWith "\n\n" (pre ++ "Intermediate Option:\n5 rounds" :: mid ++
          "Beginner Option:\n3 rounds" :: post) :=
  c8_scaling_amended exC8 "250110" "Intermediate Option:\n5 rounds" "Beginner Option:\n3 rounds"
    (by decide) (by decide) (by decide)

end CFWOD
